import Mathlib

/-!
Verification development for the "Copy, Paste, Forget" browser extension.

The repository is a Chrome MV3 extension with three live parts:
  * a content script ("Detector") that watches paste events on web pages,
    classifies the paste target, and notifies the background process
    (src/content.js, src/unnamed/part_002 first document);
  * a background service worker ("Coordinator"/"Clearer") that owns the
    settings and the debounced clear countdown and executes the actual
    clipboard clear through a fallback chain (src/background.js);
  * a popup UI that forwards settings changes (src/popup.js).

This file gives a shallow embedding of the functions those claims talk
about.  Times are integer milliseconds; JavaScript timer handles become
explicit lists of scheduled callbacks so that cancellation and stacking
are visible in the model rather than assumed.
-/

namespace CopyPasteForget

/-! ## JavaScript string primitives

`String.prototype.trim` and the `\s` regex class use the ECMAScript
white-space set (ASCII whitespace, NBSP, the Unicode space separators,
line/paragraph separators and the BOM).  The detector code relies on
`text.trim() !== ''` and on `\s`-delimited token matching, so we model
that character class explicitly. -/

def isJsWs (c : Char) : Bool :=
  c == '\t' || c == '\n' || c == '\x0B' || c == '\x0C' || c == '\r' || c == ' ' ||
  c == '\u00A0' || c == '\u1680' ||
  (0x2000 ≤ c.toNat && c.toNat ≤ 0x200A) ||
  c == '\u2028' || c == '\u2029' || c == '\u202F' || c == '\u205F' ||
  c == '\u3000' || c == '\uFEFF'

def jsTrimList (l : List Char) : List Char :=
  ((l.dropWhile isJsWs).reverse.dropWhile isJsWs).reverse

/-- Model of `String.prototype.trim`. -/
def jsTrim (s : String) : String := ⟨jsTrimList s.data⟩

/-- Maximal runs of non-whitespace characters (used to model the
`(^|\s)token(\s|$)` regexes on `autocomplete` attribute values). -/
def wsTokensAux : List Char → List Char → List String
  | [], acc => if acc.isEmpty then [] else [⟨acc.reverse⟩]
  | c :: rest, acc =>
    if isJsWs c then
      (if acc.isEmpty then wsTokensAux rest [] else ⟨acc.reverse⟩ :: wsTokensAux rest [])
    else wsTokensAux rest (c :: acc)

def wsTokens (s : String) : List String := wsTokensAux s.data []

/-- Model of `String.prototype.toLowerCase` (ASCII fold; every string the
code compares against is ASCII). -/
def jsToLower (s : String) : String := ⟨s.data.map Char.toLower⟩

def charsInfixOf (pat : List Char) : List Char → Bool
  | [] => pat.isEmpty
  | c :: rest => pat.isPrefixOf (c :: rest) || charsInfixOf pat rest

/-- Model of `String.prototype.includes` (substring containment). -/
def strIncludes (s pat : String) : Bool := charsInfixOf pat.data s.data

/-! ## Detector data model

A paste target is modelled, after the `closest('input')` resolution the
code performs, as `Option InputElement`: `none` when the target is not
(inside) an `HTMLInputElement`, otherwise the relevant attributes and the
computed `-webkit-text-security` style of that input. -/

structure InputElement where
  type : String
  autocomplete : String
  name : String
  id : String
  textSecurity : String
deriving DecidableEq, Repr

/-- The `css && css.trim().toLowerCase() !== 'none'` masked-text signal
shared by every detector variant (`css` is the computed
`-webkit-text-security` value; an empty string is falsy in JS). -/
def cssMasked (css : String) : Bool :=
  (!(css == "")) && (!(jsToLower (jsTrim css) == "none"))

/-- The event message a detector sends to the background process
(`{type: 'PASTE_DETECTED', timestamp, isPassword}`). -/
structure DetectionEvent where
  timestamp : Int
  isPassword : Bool
deriving DecidableEq, Repr

namespace Part002

/-- Embeds `isPasswordField` of src/unnamed/part_002 (first document,
lines 20–45): only the nearest `input` element counts, and it is a
password field iff `type=password`, or the lowercased `autocomplete`
attribute contains one of the tokens `current-password`, `new-password`,
`one-time-code` (regex `(^|\s)tok(\s|$)`), or the masked-text CSS signal
holds.  The argument is the result of the `closest('input')` walk, `none`
when there is no enclosing input (the code then returns false). -/
def isPasswordField (el : Option InputElement) : Bool :=
  match el with
  | none => false
  | some input =>
    if jsToLower input.type == "password" then true
    else if (wsTokens (jsToLower input.autocomplete)).any
        (fun w => w == "current-password" || w == "new-password" || w == "one-time-code") then true
    else if cssMasked input.textSecurity then true
    else false

/-- Embeds `handlePasteEvent` of src/unnamed/part_002 lines 82–99 (the
same code appears in src/content.js lines 383–400): read the transferred
text (`''` when the event has no `clipboardData`, modelled by `none`);
notify only when the trimmed text is non-empty, and only while the
extension context is still considered valid (`notifyPasteEvent`'s guard).
The returned value is the message sent, `none` when nothing is sent. -/
def handlePasteEvent (now : Int) (ctxValid : Bool) (clip : Option String)
    (target : Option InputElement) : Option DetectionEvent :=
  let isPwd := isPasswordField target
  let text := clip.getD ""
  if jsTrim text == "" then none
  else if ctxValid then some ⟨now, isPwd⟩ else none

end Part002

namespace ContentJs

/-- Embeds `isPasswordField` of src/content.js (second document, lines
323–343).  For an `HTMLInputElement` (the case relevant here; for other
elements the code recurses on `closest('input,textarea,...')`, which for
an input returns the element itself and falls through to `false`):
`type=password`, or autocomplete tokens `current-password`/`new-password`
(note: no `one-time-code`), or — unlike part_002 — the lowercased
`name + ' ' + id` string containing the substring `password`, or the
masked-text CSS signal. -/
def isPasswordField (el : Option InputElement) : Bool :=
  match el with
  | none => false
  | some input =>
    if jsToLower input.type == "password" then true
    else if (wsTokens (jsToLower input.autocomplete)).any
        (fun w => w == "current-password" || w == "new-password") then true
    else if strIncludes (jsToLower (input.name ++ " " ++ input.id)) "password" then true
    else if cssMasked input.textSecurity then true
    else false

end ContentJs

/-- The narrow rule set in the spec's words: "exact input `type=password`;
`autocomplete` values of `current-password`/`new-password`/`one-time-code`;
a masked-text CSS rendering signal".  Used to compare the detector
implementations against the specified classification. -/
def specPasswordRule (i : InputElement) : Bool :=
  (jsToLower i.type == "password") ||
  (wsTokens (jsToLower i.autocomplete)).any
    (fun w => w == "current-password" || w == "new-password" || w == "one-time-code") ||
  cssMasked i.textSecurity

/-! ## Coordinator data model (src/background.js)

The service worker keeps a mutable `settings` record, a variable
`clearTimer` holding (at most) the handle of the pending
`setTimeout(clearClipboard, interval*1000)`, and per-paste
`setInterval` badge countdowns.  We model the JavaScript timer queue
explicitly: `pendingClears` is the list of scheduled clear timeouts not
yet fired or canceled (so failing to call `clearTimeout` would leave
stale entries behind — non-stacking is a theorem, not a modelling
assumption), `intervals` the list of live badge `setInterval`
countdowns, and `clearTimerVar` the value of the `clearTimer` variable.
`clearInvocations` counts calls of `clearClipboard()` (the "clear
command" of the spec). -/

structure Settings where
  interval : Int
  enabled : Bool
  clearOnlyOnPasswordPaste : Bool
deriving DecidableEq, Repr

structure BadgeInterval where
  id : Nat
  startMs : Int
  count : Int
deriving DecidableEq, Repr

structure PendingClear where
  id : Nat
  deadline : Int
  clearsInterval : Option Nat
deriving DecidableEq, Repr

structure BgState where
  settings : Settings
  clearTimerVar : Option Nat
  pendingClears : List PendingClear
  intervals : List BadgeInterval
  nextId : Nat
  clearInvocations : Nat
deriving DecidableEq, Repr

/-- Initial in-memory state: `let clearTimer = null; let settings =
{ interval: 10, enabled: true, clearOnlyOnPasswordPaste: false }`
(src/background.js lines 3–4). -/
def initState : BgState :=
  { settings := { interval := 10, enabled := true, clearOnlyOnPasswordPaste := false }
    clearTimerVar := none
    pendingClears := []
    intervals := []
    nextId := 0
    clearInvocations := 0 }

/-- Effect of `clearTimeout(clearTimer)`: drop the scheduled timeout the
variable refers to (a no-op when the variable is null or the timeout
already fired).  The variable itself is not nulled here — the call sites
differ on that. -/
def cancelPending (s : BgState) : BgState :=
  match s.clearTimerVar with
  | none => s
  | some i => { s with pendingClears := s.pendingClears.filter (fun p => !(p.id == i)) }

/-- A `setInterval` badge countdown started with `timeLeft = count`
decrements once per second and removes itself at the tick where the
decremented value is no longer positive, i.e. `max count 1` seconds after
it was scheduled. -/
def intervalEnd (iv : BadgeInterval) : Int := iv.startMs + 1000 * max iv.count 1

/-- Embeds `handlePasteEvent` of src/background.js lines 123–143, run at
time `t`: `clearTimeout` the previous `clearTimer` (note: only the
timeout — the previous `countdownInterval` is a local of the previous
call and is not cleared), start a fresh badge `setInterval` with
`timeLeft = settings.interval`, and schedule
`clearTimer = setTimeout(..., settings.interval * 1000)` whose callback
clears that fresh interval and calls `clearClipboard`. -/
def handlePasteEvent (t : Int) (s : BgState) : BgState :=
  let s1 := cancelPending s
  let ivId := s1.nextId
  let tmId := s1.nextId + 1
  { s1 with
    intervals := ⟨ivId, t, s1.settings.interval⟩ :: s1.intervals
    pendingClears := ⟨tmId, t + 1000 * s1.settings.interval, some ivId⟩ :: s1.pendingClears
    clearTimerVar := some tmId
    nextId := s1.nextId + 2 }

/-- State effect of entering `clearClipboard` (src/background.js lines
145–150) and of the command as a whole: cancel and null the pending
timer, and record that one clear command ran.  Which fallback context (if
any) succeeds is the separate pure function `clearClipboard` below; the
state effect is the same either way because the function traps every
failure. -/
def clearNowEffect (s : BgState) : BgState :=
  let s1 := cancelPending s
  { s1 with clearTimerVar := none, clearInvocations := s1.clearInvocations + 1 }

/-- Fire one scheduled clear timeout, provided it is still scheduled:
the callback (src/background.js lines 139–142, or line 266 for the timer
rescheduled by `updateSettings`) runs `clearInterval` on the linked badge
countdown when it has one, then `clearClipboard()`. -/
def fireTimer (p : PendingClear) (s : BgState) : BgState :=
  if s.pendingClears.any (fun q => q.id == p.id) then
    let s1 := { s with
      pendingClears := s.pendingClears.filter (fun q => !(q.id == p.id))
      intervals := s.intervals.filter (fun iv => !(p.clearsInterval == some iv.id)) }
    clearNowEffect s1
  else s

def fireTimers : List PendingClear → BgState → BgState
  | [], s => s
  | p :: rest, s => fireTimers rest (fireTimer p s)

/-- Advance the event loop to time `t`: every scheduled clear timeout
whose deadline has been reached fires, and badge intervals whose
countdown has run out have removed themselves. -/
def advanceTo (t : Int) (s : BgState) : BgState :=
  let s1 := fireTimers (s.pendingClears.filter (fun p => p.deadline ≤ t)) s
  { s1 with intervals := s1.intervals.filter (fun iv => t < intervalEnd iv) }

/-! ## Clearer fallback chain and message handling -/

/-- Which step of the fallback chain in `clearClipboard` succeeded. -/
inductive ClearStep where
  | activeTab
  | fallbackTab
  | contentScript
  | offscreen
deriving DecidableEq, Repr

/-- Environment of one `clearClipboard` run: whether the active-tab
injection, the any-suitable-tab injection, a content-script
`CLEAR_CLIPBOARD_REQUEST` acknowledgement, and the
offscreen/auxiliary-window path (`clearClipboardOffscreen()` returning
true) are available. -/
structure ClearEnv where
  activeTabOk : Bool
  fallbackTabOk : Bool
  contentScriptAck : Bool
  offscreenOk : Bool
deriving DecidableEq, Repr

/-- Embeds the fallback chain of `clearClipboard` (src/background.js
lines 145–211): try the active tab, then any suitable tab, then any
content script, then the offscreen/auxiliary path; stop at the first
success.  Every step sits in its own `try`/`catch` and the whole body in
an outer one, so when all four fail the function logs
`'No suitable context available to clear clipboard'` and returns
normally — the result is `none`, never an exception: the returned
promise always resolves. -/
def clearClipboard (env : ClearEnv) : Option ClearStep :=
  if env.activeTabOk then some .activeTab
  else if env.fallbackTabOk then some .fallbackTab
  else if env.contentScriptAck then some .contentScript
  else if env.offscreenOk then some .offscreen
  else none

/-- Responses sent back through `sendResponse`. -/
inductive MsgResponse where
  | ack (success : Bool) (message : Option String) (error : Option String)
  | settingsReply (s : Settings)
deriving DecidableEq, Repr

/-- Embeds the `PASTE_DETECTED` case of the message router
(src/background.js lines 43–52): run `handlePasteEvent` iff the
extension is enabled and the password-only policy allows the event;
always acknowledge with `{success: true}`. -/
def handlePasteMsg (t : Int) (isPassword : Bool) (s : BgState) : BgState × MsgResponse :=
  (if s.settings.enabled && (!s.settings.clearOnlyOnPasswordPaste || isPassword) then
     handlePasteEvent t s
   else s,
   .ack true none none)

/-- Embeds the `TOGGLE_EXTENSION` case (src/background.js lines 62–85):
set `settings.enabled`; when disabling with a pending timer, clearTimeout
it and null the variable; respond `{success: true}` (the storage write is
fire-and-forget with its own swallowed catch; the badge calls are
presentation only). -/
def handleToggle (enabled : Bool) (s : BgState) : BgState × MsgResponse :=
  let s1 := { s with settings := { s.settings with enabled := enabled } }
  let s2 :=
    if enabled then s1
    else { (cancelPending s1) with clearTimerVar := none }
  (s2, .ack true none none)

/-- Embeds `updateSettings` (src/background.js lines 260–272) run at
time `t` with the storage write outcome made explicit: set
`settings.interval` first; then, only if `chrome.storage.sync.set`
succeeds and a timer is pending, clearTimeout it and schedule a fresh
`setTimeout(() => clearClipboard(), settings.interval * 1000)` (this new
timer has no linked badge interval).  A storage failure is caught and
only logged, so the function resolves either way. -/
def updateSettings (t newInterval : Int) (storageOk : Bool) (s : BgState) : BgState :=
  let s1 := { s with settings := { s.settings with interval := newInterval } }
  if storageOk then
    match s1.clearTimerVar with
    | some _ =>
      let s2 := cancelPending s1
      { s2 with
        pendingClears := ⟨s2.nextId, t + 1000 * newInterval, none⟩ :: s2.pendingClears
        clearTimerVar := some s2.nextId
        nextId := s2.nextId + 1 }
    | none => s1
  else s1

/-- Embeds the `UPDATE_SETTINGS` case (src/background.js lines 86–91):
`updateSettings(Number(message.interval))` with no range or integrality
validation; since `updateSettings` swallows its only fallible step, the
`.catch` branch is unreachable and the response is always
`{success: true}`. -/
def handleUpdateSettings (t newInterval : Int) (storageOk : Bool) (s : BgState) :
    BgState × MsgResponse :=
  (updateSettings t newInterval storageOk s, .ack true none none)

/-- Embeds the `CLEAR_CLIPBOARD_NOW` case (src/background.js lines
106–115): when disabled, answer `{success: false, message: 'Extension is
disabled'}` synchronously with no other effect; when enabled, run
`clearClipboard()` — both the some- and none-outcome of the fallback
chain are normal resolution, so `.then` runs and the answer is
`{success: true}` in either case (the `.catch` branch is unreachable). -/
def handleClearNow (env : ClearEnv) (s : BgState) : BgState × MsgResponse :=
  if s.settings.enabled then
    match clearClipboard env with
    | some _ => (clearNowEffect s, .ack true none none)
    | none => (clearNowEffect s, .ack true none none)
  else (s, .ack false (some "Extension is disabled") none)

/-! ## Event traces -/

/-- External inputs to the background process, each carrying its arrival
time; timer callbacks due before that time run first (`advanceTo`). -/
inductive Ev where
  | paste (t : Int) (isPassword : Bool)
  | toggle (t : Int) (enabled : Bool)
  | update (t : Int) (interval : Int) (storageOk : Bool)
  | clearNow (t : Int) (env : ClearEnv)
deriving DecidableEq, Repr

def stepEv (s : BgState) (e : Ev) : BgState :=
  match e with
  | .paste t isPwd => (handlePasteMsg t isPwd (advanceTo t s)).1
  | .toggle t en => (handleToggle en (advanceTo t s)).1
  | .update t n ok => (handleUpdateSettings t n ok (advanceTo t s)).1
  | .clearNow t env => (handleClearNow env (advanceTo t s)).1

def run (s : BgState) (es : List Ev) : BgState := es.foldl stepEv s

/-- At most one clear timeout is ever scheduled, and the `clearTimer`
variable refers to it: the coordinator never stacks timers. -/
def TimerInv (s : BgState) : Prop :=
  (s.clearTimerVar = none ∧ s.pendingClears = []) ∨
  (∃ p, s.pendingClears = [p] ∧ s.clearTimerVar = some p.id)

/-- Successive paste times each arriving before the countdown deadline
left by the previous one (delay `d` seconds, deadlines in ms). -/
def ChainedPastes (d : Int) : Int → List (Int × Bool) → Prop
  | _, [] => True
  | deadline, x :: rest => x.1 < deadline ∧ ChainedPastes d (x.1 + 1000 * d) rest

/-! ## Popup (src/popup.js) -/

namespace Popup

/-- Embeds `autoSaveInterval` of src/popup.js lines 195–232, up to the
message it sends: `parseInt(intervalInput.value)` is modelled by its
result (`none` for NaN, otherwise the parsed integer); when the value is
NaN or outside 1–300 the function shows an error and returns without
sending; otherwise it sends `UPDATE_SETTINGS` with that interval.  The
result is the interval forwarded to the background, `none` when nothing
is sent. -/
def autoSaveInterval (parsed : Option Int) : Option Int :=
  match parsed with
  | none => none
  | some n => if n < 1 || n > 300 then none else some n

end Popup

/-! ## Supporting lemmas -/

lemma dropWhile_all {p : Char → Bool} :
    ∀ l : List Char, (∀ c ∈ l, p c = true) → l.dropWhile p = [] := by
  intro l h
  induction l with
  | nil => rfl
  | cons c rest ih =>
    simp only [List.dropWhile]
    rw [h c (List.mem_cons_self _ _)]
    exact ih fun d hd => h d (List.mem_cons_of_mem _ hd)

lemma jsTrim_of_all_ws (s : String) (h : ∀ c ∈ s.data, isJsWs c = true) :
    jsTrim s = "" := by
  have h1 : s.data.dropWhile isJsWs = [] := dropWhile_all s.data h
  show String.mk (jsTrimList s.data) = ""
  unfold jsTrimList
  rw [h1]
  rfl


lemma cancelPending_settings (s : BgState) : (cancelPending s).settings = s.settings := by
  cases hv : s.clearTimerVar <;> simp [cancelPending, hv]

lemma cancelPending_nextId (s : BgState) : (cancelPending s).nextId = s.nextId := by
  cases hv : s.clearTimerVar <;> simp [cancelPending, hv]

lemma cancelPending_intervals (s : BgState) : (cancelPending s).intervals = s.intervals := by
  cases hv : s.clearTimerVar <;> simp [cancelPending, hv]

lemma cancelPending_invocations (s : BgState) :
    (cancelPending s).clearInvocations = s.clearInvocations := by
  cases hv : s.clearTimerVar <;> simp [cancelPending, hv]

lemma cancelPending_var (s : BgState) : (cancelPending s).clearTimerVar = s.clearTimerVar := by
  cases hv : s.clearTimerVar <;> simp [cancelPending, hv]

/-- Under the timer invariant, `clearTimeout(clearTimer)` empties the
scheduled-clear queue. -/
lemma cancelPending_nil {s : BgState} (h : TimerInv s) : (cancelPending s).pendingClears = [] := by
  rcases h with ⟨hv, hp⟩ | ⟨p, hp, hv⟩
  · simp [cancelPending, hv, hp]
  · simp [cancelPending, hv, hp, List.filter]

lemma timerInv_handlePasteEvent {s : BgState} (h : TimerInv s) (t : Int) :
    TimerInv (handlePasteEvent t s) := by
  right
  refine ⟨⟨(cancelPending s).nextId + 1, t + 1000 * (cancelPending s).settings.interval,
    some (cancelPending s).nextId⟩, ?_, rfl⟩
  simp [handlePasteEvent, cancelPending_nil h]

lemma timerInv_settings_set {s : BgState} (h : TimerInv s) (st : Settings) :
    TimerInv { s with settings := st } := by
  rcases h with ⟨hv, hp⟩ | ⟨p, hp, hv⟩
  · exact Or.inl ⟨hv, hp⟩
  · exact Or.inr ⟨p, hp, hv⟩

lemma timerInv_handleToggle {s : BgState} (h : TimerInv s) (en : Bool) :
    TimerInv (handleToggle en s).1 := by
  unfold handleToggle
  cases en with
  | true => simpa using timerInv_settings_set h _
  | false =>
    simp only [Bool.false_eq_true, if_neg, if_false]
    left
    exact ⟨rfl, cancelPending_nil (timerInv_settings_set h _)⟩

lemma timerInv_updateSettings {s : BgState} (h : TimerInv s) (t n : Int) (ok : Bool) :
    TimerInv (updateSettings t n ok s) := by
  obtain ⟨st, var, pend, ivs, nid, cinv⟩ := s
  unfold updateSettings
  cases ok with
  | false => simpa using timerInv_settings_set h _
  | true =>
    cases var with
    | none => simpa using timerInv_settings_set h _
    | some j =>
      rcases h with ⟨hv, hp⟩ | ⟨p, hp, hv⟩
      · exact absurd hv (by simp)
      · simp only at hp hv
        subst hp
        have hj : j = p.id := by simpa using hv
        subst hj
        right
        refine ⟨⟨nid, t + 1000 * n, none⟩, ?_, ?_⟩
        · simp [cancelPending, List.filter]
        · simp [cancelPending]

lemma timerInv_clearNowEffect {s : BgState} (h : TimerInv s) : TimerInv (clearNowEffect s) := by
  unfold clearNowEffect
  left
  exact ⟨rfl, cancelPending_nil h⟩

lemma timerInv_handleClearNow {s : BgState} (h : TimerInv s) (env : ClearEnv) :
    TimerInv (handleClearNow env s).1 := by
  unfold handleClearNow
  cases he : s.settings.enabled with
  | true =>
    simp only [he, if_true]
    cases clearClipboard env <;> exact timerInv_clearNowEffect h
  | false =>
    simpa [he] using h

lemma timerInv_handlePasteMsg {s : BgState} (h : TimerInv s) (t : Int) (b : Bool) :
    TimerInv (handlePasteMsg t b s).1 := by
  unfold handlePasteMsg
  by_cases hc : (s.settings.enabled && (!s.settings.clearOnlyOnPasswordPaste || b)) = true
  · simpa [hc] using timerInv_handlePasteEvent h t
  · simp only [Bool.not_eq_true] at hc
    simpa [hc] using h

lemma timerInv_fireTimer {s : BgState} (h : TimerInv s) (p : PendingClear) :
    TimerInv (fireTimer p s) := by
  obtain ⟨st, var, pend, ivs, nid, cinv⟩ := s
  unfold fireTimer
  by_cases hm : (pend.any (fun q => q.id == p.id)) = true
  · simp only at hm
    simp only [hm, if_true]
    rcases h with ⟨hv, hp⟩ | ⟨q, hp, hv⟩
    · simp only at hp
      subst hp
      simp at hm
    · simp only at hp hv
      subst hp
      subst hv
      have hq : (q.id == p.id) = true := by simpa using hm
      left
      refine ⟨rfl, ?_⟩
      simp [clearNowEffect, cancelPending, List.filter, hq]
  · simp only [Bool.not_eq_true] at hm
    simp only [hm]
    simp only [Bool.false_eq_true, if_false]
    exact h

lemma timerInv_fireTimers {s : BgState} (h : TimerInv s) (ps : List PendingClear) :
    TimerInv (fireTimers ps s) := by
  induction ps generalizing s with
  | nil => exact h
  | cons p rest ih => exact ih (timerInv_fireTimer h p)

lemma timerInv_advanceTo {s : BgState} (h : TimerInv s) (t : Int) :
    TimerInv (advanceTo t s) := by
  unfold advanceTo
  have h1 := timerInv_fireTimers h (s.pendingClears.filter (fun p => decide (p.deadline ≤ t)))
  rcases h1 with ⟨hv, hp⟩ | ⟨p, hp, hv⟩
  · exact Or.inl ⟨hv, hp⟩
  · exact Or.inr ⟨p, hp, hv⟩

lemma timerInv_stepEv {s : BgState} (h : TimerInv s) (e : Ev) : TimerInv (stepEv s e) := by
  cases e with
  | paste t b => exact timerInv_handlePasteMsg (timerInv_advanceTo h t) t b
  | toggle t en => exact timerInv_handleToggle (timerInv_advanceTo h t) en
  | update t n ok => exact timerInv_updateSettings (timerInv_advanceTo h t) t n ok
  | clearNow t env => exact timerInv_handleClearNow (timerInv_advanceTo h t) env

lemma timerInv_run {s : BgState} (h : TimerInv s) (es : List Ev) : TimerInv (run s es) := by
  induction es generalizing s with
  | nil => exact h
  | cons e rest ih => exact ih (timerInv_stepEv h e)

lemma run_cons (s : BgState) (e : Ev) (es : List Ev) : run s (e :: es) = run (stepEv s e) es :=
  rfl

/-- When no scheduled clear timeout is due yet, advancing the event loop
only lets expired badge intervals remove themselves. -/
lemma advanceTo_no_due {t : Int} {s : BgState} (h : ∀ p ∈ s.pendingClears, t < p.deadline) :
    advanceTo t s = { s with intervals := s.intervals.filter (fun iv => t < intervalEnd iv) } := by
  unfold advanceTo
  have h1 : s.pendingClears.filter (fun p => decide (p.deadline ≤ t)) = [] := by
    simp only [List.filter_eq_nil_iff, decide_eq_true_eq]
    intro p hp
    exact not_le.mpr (h p hp)
  rw [h1]
  rfl

/-- Full effect of `handlePasteEvent` from a state satisfying the timer
invariant. -/
lemma handlePasteEvent_spec {s : BgState} (h : TimerInv s) (t : Int) :
    (handlePasteEvent t s).pendingClears
        = [⟨s.nextId + 1, t + 1000 * s.settings.interval, some s.nextId⟩] ∧
    (handlePasteEvent t s).clearTimerVar = some (s.nextId + 1) ∧
    (handlePasteEvent t s).settings = s.settings ∧
    (handlePasteEvent t s).clearInvocations = s.clearInvocations ∧
    (handlePasteEvent t s).nextId = s.nextId + 2 ∧
    (handlePasteEvent t s).intervals = ⟨s.nextId, t, s.settings.interval⟩ :: s.intervals := by
  simp [handlePasteEvent, cancelPending_nil h, cancelPending_nextId, cancelPending_settings,
    cancelPending_intervals, cancelPending_invocations]

/-- A scheduled clear timeout that reaches its deadline fires exactly one
clear command and leaves no scheduled clear behind. -/
lemma advanceTo_fires {u : BgState} {q : PendingClear} (h : u.pendingClears = [q]) :
    (advanceTo q.deadline u).clearInvocations = u.clearInvocations + 1 ∧
    (advanceTo q.deadline u).pendingClears = [] := by
  obtain ⟨st, var, pend, ivs, nid, cinv⟩ := u
  simp only at h
  subst h
  cases var with
  | none =>
    simp [advanceTo, fireTimers, fireTimer, clearNowEffect, cancelPending, List.filter]
  | some i =>
    simp [advanceTo, fireTimers, fireTimer, clearNowEffect, cancelPending, List.filter]

/-- Processing a run of qualifying pastes, each arriving before the
deadline of the countdown the previous one left behind, keeps exactly one
scheduled clear whose deadline tracks the most recent paste, and issues
no clear command. -/
lemma run_chained_pastes :
    ∀ (l : List (Int × Bool)) (s : BgState) (p : PendingClear),
      s.settings.enabled = true →
      (∀ x ∈ l, s.settings.clearOnlyOnPasswordPaste = false ∨ x.2 = true) →
      s.pendingClears = [p] → s.clearTimerVar = some p.id →
      ChainedPastes s.settings.interval p.deadline l →
      ∃ q : PendingClear,
        (run s (l.map fun x => Ev.paste x.1 x.2)).pendingClears = [q] ∧
        (run s (l.map fun x => Ev.paste x.1 x.2)).clearTimerVar = some q.id ∧
        q.deadline = l.foldl (fun _ x => x.1 + 1000 * s.settings.interval) p.deadline ∧
        (run s (l.map fun x => Ev.paste x.1 x.2)).clearInvocations = s.clearInvocations ∧
        (run s (l.map fun x => Ev.paste x.1 x.2)).settings = s.settings := by
  intro l
  induction l with
  | nil =>
    intro s p _ _ hp hv _
    exact ⟨p, hp, hv, rfl, rfl, rfl⟩
  | cons x rest ih =>
    intro s p hen hpol hp hv hchain
    obtain ⟨hlt, hchain'⟩ := hchain
    have hdue : ∀ q ∈ s.pendingClears, x.1 < q.deadline := by
      intro q hq
      rw [hp] at hq
      simp at hq
      subst hq
      exact hlt
    set s1 := advanceTo x.1 s with hs1
    have hs1eq : s1 = { s with intervals := s.intervals.filter (fun iv => x.1 < intervalEnd iv) } :=
      advanceTo_no_due hdue
    have hs1p : s1.pendingClears = [p] := by rw [hs1eq]; exact hp
    have hs1v : s1.clearTimerVar = some p.id := by rw [hs1eq]; exact hv
    have hs1set : s1.settings = s.settings := by rw [hs1eq]
    have hs1inv : TimerInv s1 := Or.inr ⟨p, hs1p, hs1v⟩
    have hcond : (s1.settings.enabled && (!s1.settings.clearOnlyOnPasswordPaste || x.2)) = true := by
      rw [hs1set, hen]
      rcases hpol x (List.mem_cons_self _ _) with hc | hc
      · rw [hc]; rfl
      · rw [hc]; simp
    have hstep : stepEv s (Ev.paste x.1 x.2) = handlePasteEvent x.1 s1 := by
      simp only [stepEv, handlePasteMsg, ← hs1, hcond, if_true]
    set s2 := handlePasteEvent x.1 s1 with hs2
    obtain ⟨h2p, h2v, h2set, h2inv, _, _⟩ := handlePasteEvent_spec hs1inv x.1
    set p' : PendingClear :=
      ⟨s1.nextId + 1, x.1 + 1000 * s1.settings.interval, some s1.nextId⟩ with hp'
    have h2en : s2.settings.enabled = true := by rw [h2set, hs1set, hen]
    have h2pol : ∀ y ∈ rest, s2.settings.clearOnlyOnPasswordPaste = false ∨ y.2 = true := by
      intro y hy
      rw [h2set, hs1set]
      exact hpol y (List.mem_cons_of_mem _ hy)
    have h2int : s2.settings.interval = s.settings.interval := by rw [h2set, hs1set]
    have h2chain : ChainedPastes s2.settings.interval p'.deadline rest := by
      rw [h2int, hp']
      simp only []
      rw [hs1set]
      exact hchain'
    obtain ⟨q, hq1, hq2, hq3, hq4, hq5⟩ := ih s2 p' h2en h2pol h2p h2v h2chain
    refine ⟨q, ?_, ?_, ?_, ?_, ?_⟩
    · rw [List.map_cons, run_cons, hstep]
      exact hq1
    · rw [List.map_cons, run_cons, hstep]
      exact hq2
    · rw [hq3, h2int]
      simp only [List.foldl_cons, hp']
      rw [hs1set]
    · rw [List.map_cons, run_cons, hstep, hq4, hs2, h2inv, hs1eq]
    · rw [List.map_cons, run_cons, hstep, hq5, hs2, h2set, hs1eq]

/-- The function `updateSettings` stores the new interval unconditionally (before the
storage write). -/
lemma updateSettings_interval (t n : Int) (ok : Bool) (s : BgState) :
    (updateSettings t n ok s).settings.interval = n := by
  obtain ⟨st, var, pend, ivs, nid, cinv⟩ := s
  cases ok <;> cases var <;> simp [updateSettings, cancelPending]

lemma foldl_deadline (D : Int) :
    ∀ (l : List (Int × Bool)) (a : Int × Bool),
      l.foldl (fun _ x => x.1 + 1000 * D) (a.1 + 1000 * D) = (l.getLastD a).1 + 1000 * D := by
  intro l
  induction l with
  | nil => intro a; rfl
  | cons b l2 ih =>
    intro a
    rw [List.foldl_cons, List.getLastD_cons]
    exact ih b

lemma handlePasteEvent_nextId (t : Int) (s : BgState) :
    (handlePasteEvent t s).nextId = s.nextId + 2 := by
  simp [handlePasteEvent, cancelPending_nextId]

lemma ifChain3 : ∀ a b c : Bool,
    (if a then true else if b then true else if c then true else false) = (a || b || c) := by
  decide

/-! ## Claim theorems -/

/-- C1: the claim states that when every step of the Clearer fallback
chain fails, the overall clear is reported as failed and a
CLEAR_CLIPBOARD_NOW request receives a non-success response.  Evaluating
the model at that failing input shows the opposite: `clearClipboard`
exhausts all four contexts with no success (`none` — the code only logs
`'No suitable context available to clear clipboard'`), yet because the
function traps every failure and its promise always resolves, the
router's `.then` branch answers `{success: true}` anyway (its `.catch`
branch is unreachable).  The enabled flag is the default `true`. -/
theorem claimC1_all_fallbacks_fail_still_success :
    clearClipboard ⟨false, false, false, false⟩ = none ∧
    initState.settings.enabled = true ∧
    (handleClearNow ⟨false, false, false, false⟩ initState).2 = .ack true none none :=
  ⟨rfl, rfl, rfl⟩

/-- C8 counterexample: the claim says the Detector never uses name/id
substring heuristics, and classifies as non-password every input whose
name/id merely contains "password" while matching no narrow rule.  The
detector revision in src/content.js (lines 323–343, cited by the claim)
violates this: an input with `type="text"`, empty `autocomplete`,
`-webkit-text-security: none`, and `name="user_password"` satisfies none
of the narrow rules (`specPasswordRule` is false) yet is classified as a
password field via the `nameId.includes('password')` branch. -/
theorem claimC8_counterexample :
    ContentJs.isPasswordField (some ⟨"text", "", "user_password", "", "none"⟩) = true ∧
    specPasswordRule ⟨"text", "", "user_password", "", "none"⟩ = false :=
  ⟨rfl, rfl⟩

/-- C8 (amended): the part_002 detector — the narrow-heuristic variant the
spec adopts as canonical — classifies exactly by the narrow rule set
(type=password, the three autocomplete values, masked-text CSS), returns
false for non-input targets, and in particular classifies as non-password
every element matching none of the narrow rules, regardless of its
name/id; the src/content.js revision additionally matches the substring
"password" in name/id and omits one-time-code. -/
theorem claimC8_narrow_rules :
    (∀ el : InputElement, Part002.isPasswordField (some el) = specPasswordRule el) ∧
    (Part002.isPasswordField none = false) ∧
    (∀ el : InputElement, specPasswordRule el = false →
      Part002.isPasswordField (some el) = false) := by
  have h1 : ∀ el : InputElement, Part002.isPasswordField (some el) = specPasswordRule el := by
    intro el
    show (if jsToLower el.type == "password" then true
      else if (wsTokens (jsToLower el.autocomplete)).any
        (fun w => w == "current-password" || w == "new-password" || w == "one-time-code") then true
      else if cssMasked el.textSecurity then true
      else false) = specPasswordRule el
    rw [ifChain3]
    rfl
  refine ⟨h1, rfl, fun el h => ?_⟩
  rw [h1 el, h]

/-- C8 witness: the same input that the content.js revision classifies as
a password field is classified as non-password by the canonical part_002
detector. -/
theorem claimC8_narrow_rules_witness :
    Part002.isPasswordField (some ⟨"text", "", "user_password", "", "none"⟩) = false :=
  claimC8_narrow_rules.2.2 ⟨"text", "", "user_password", "", "none"⟩ rfl

/-- C9: a paste event whose transferred text is empty or consists only of
(ECMAScript) whitespace produces no DetectionEvent: `handlePasteEvent`
sends no PASTE_DETECTED message, for every timestamp, liveness state,
and paste target (the missing-clipboardData case is `clip = none`,
giving text `''`). -/
theorem claimC9_blank_paste_no_event (now : Int) (ctxValid : Bool) (clip : Option String)
    (target : Option InputElement)
    (h : ∀ c ∈ (clip.getD "").data, isJsWs c = true) :
    Part002.handlePasteEvent now ctxValid clip target = none := by
  unfold Part002.handlePasteEvent
  have h1 : jsTrim (clip.getD "") = "" := jsTrim_of_all_ws (clip.getD "") h
  simp [h1]

/-- C9 witness: a whitespace-only paste into an arbitrary target sends
nothing. -/
theorem claimC9_blank_paste_no_event_witness :
    Part002.handlePasteEvent 0 true (some "  \t ") none = none :=
  claimC9_blank_paste_no_event 0 true (some "  \t ") none (by decide)

/-- C10: a CLEAR_CLIPBOARD_NOW request received while `enabled` is false
is answered `{success: false, message: 'Extension is disabled'}` without
invoking the Clearer and without touching the settings or any timer
state: the handler returns the state unchanged. -/
theorem claimC10_disabled_clear_now (env : ClearEnv) (s : BgState)
    (h : s.settings.enabled = false) :
    handleClearNow env s = (s, .ack false (some "Extension is disabled") none) := by
  simp [handleClearNow, h]

/-- C10 witness: a disabled coordinator refuses the manual clear and is
left untouched. -/
theorem claimC10_disabled_clear_now_witness :
    handleClearNow ⟨true, true, true, true⟩ ⟨⟨10, false, false⟩, none, [], [], 0, 0⟩
      = (⟨⟨10, false, false⟩, none, [], [], 0, 0⟩,
         .ack false (some "Extension is disabled") none) :=
  claimC10_disabled_clear_now ⟨true, true, true, true⟩ _ rfl

/-- C5: for every PASTE_DETECTED message, a countdown is started if and
only if `enabled` is true and (`clearOnlyOnPasswordPaste` is false or the
event's isPassword flag is true).  "A countdown is started" is visible as
the allocation of fresh timer handles (`nextId` changes); when the paste
qualifies and the timer invariant holds, exactly one clear is scheduled,
with deadline the arrival time plus the configured delay; when it does
not qualify the state is returned untouched.  In particular, with
password-only mode on, a non-password paste never starts a countdown and
a password paste always does when enabled.  The acknowledgement is
`{success: true}` in all cases. -/
theorem claimC5_paste_policy (t : Int) (isPassword : Bool) (s : BgState) :
    ((handlePasteMsg t isPassword s).2 = .ack true none none) ∧
    (((handlePasteMsg t isPassword s).1.nextId ≠ s.nextId) ↔
      (s.settings.enabled = true ∧
        (s.settings.clearOnlyOnPasswordPaste = false ∨ isPassword = true))) ∧
    (s.settings.enabled = true → isPassword = true → TimerInv s →
      ∃ tm : PendingClear, (handlePasteMsg t isPassword s).1.pendingClears = [tm] ∧
        tm.deadline = t + 1000 * s.settings.interval) ∧
    (s.settings.enabled = true → s.settings.clearOnlyOnPasswordPaste = true →
      isPassword = false → (handlePasteMsg t isPassword s).1 = s) ∧
    (s.settings.enabled = false → (handlePasteMsg t isPassword s).1 = s) := by
  refine ⟨rfl, ?_, ?_, ?_, ?_⟩
  · cases hen : s.settings.enabled <;> cases hpo : s.settings.clearOnlyOnPasswordPaste <;>
      cases hpw : isPassword <;>
      simp [handlePasteMsg, hen, hpo, hpw, handlePasteEvent_nextId]
  · intro hen hpw hInv
    have hc : (s.settings.enabled && (!s.settings.clearOnlyOnPasswordPaste || isPassword))
        = true := by rw [hen, hpw]; simp
    refine ⟨⟨s.nextId + 1, t + 1000 * s.settings.interval, some s.nextId⟩, ?_, rfl⟩
    simp only [handlePasteMsg, hc, if_true]
    exact (handlePasteEvent_spec hInv t).1
  · intro hen hpo hpw
    have hc : (s.settings.enabled && (!s.settings.clearOnlyOnPasswordPaste || isPassword))
        = false := by rw [hen, hpo, hpw]; rfl
    simp [handlePasteMsg, hc]
  · intro hen
    have hc : (s.settings.enabled && (!s.settings.clearOnlyOnPasswordPaste || isPassword))
        = false := by rw [hen]; rfl
    simp [handlePasteMsg, hc]

/-- C5 witness: at the default settings a password paste at time 0 starts
a countdown (fresh timer handles are allocated) and is acknowledged with
success. -/
theorem claimC5_paste_policy_witness :
    ((handlePasteMsg 0 true initState).1.nextId ≠ initState.nextId) ∧
    (handlePasteMsg 0 true initState).2 = .ack true none none :=
  ⟨(claimC5_paste_policy 0 true initState).2.1.mpr ⟨rfl, Or.inr rfl⟩,
   (claimC5_paste_policy 0 true initState).1⟩

/-- C6: a disable request received while a countdown is pending moves the
coordinator to disabled, cancels the scheduled clear (timer variable
nulled, nothing left scheduled), and issues no clear command — the
clipboard is untouched by this transition; badge intervals and the other
settings are untouched, and the caller gets `{success: true}`. -/
theorem claimC6_disable_cancels_without_clearing (s : BgState) (p : PendingClear)
    (hInv : TimerInv s) (hp : s.pendingClears = [p]) :
    ((handleToggle false s).1.settings.enabled = false) ∧
    ((handleToggle false s).1.clearTimerVar = none) ∧
    ((handleToggle false s).1.pendingClears = []) ∧
    ((handleToggle false s).1.clearInvocations = s.clearInvocations) ∧
    ((handleToggle false s).1.settings.interval = s.settings.interval) ∧
    ((handleToggle false s).1.settings.clearOnlyOnPasswordPaste
        = s.settings.clearOnlyOnPasswordPaste) ∧
    ((handleToggle false s).1.intervals = s.intervals) ∧
    ((handleToggle false s).2 = .ack true none none) := by
  have hInv1 : TimerInv { s with settings := { s.settings with enabled := false } } :=
    timerInv_settings_set hInv _
  refine ⟨?_, rfl, ?_, ?_, ?_, ?_, ?_, rfl⟩
  · simp [handleToggle, cancelPending_settings]
  · simpa [handleToggle] using cancelPending_nil hInv1
  · simpa [handleToggle] using cancelPending_invocations _
  · simp [handleToggle, cancelPending_settings]
  · simp [handleToggle, cancelPending_settings]
  · simpa [handleToggle] using cancelPending_intervals _

/-- C6 witness: disabling right after a paste started a countdown cancels
the scheduled clear and issues no clear command. -/
theorem claimC6_disable_cancels_without_clearing_witness :
    ((handleToggle false (run initState [Ev.paste 0 true])).1.pendingClears = []) ∧
    ((handleToggle false (run initState [Ev.paste 0 true])).1.clearInvocations
        = (run initState [Ev.paste 0 true]).clearInvocations) :=
  ⟨(claimC6_disable_cancels_without_clearing _ ⟨1, 10000, some 0⟩
      (Or.inr ⟨⟨1, 10000, some 0⟩, rfl, rfl⟩) rfl).2.2.1,
   (claimC6_disable_cancels_without_clearing _ ⟨1, 10000, some 0⟩
      (Or.inr ⟨⟨1, 10000, some 0⟩, rfl, rfl⟩) rfl).2.2.2.1⟩

/-- C7 counterexample: the claim states that every accepted
UPDATE_SETTINGS request keeps the stored delay inside [1, 300], with
out-of-range values rejected before reaching the stored setting.  The
background router performs no validation: an UPDATE_SETTINGS message
carrying interval 0 is accepted (`{success: true}`) and the stored
setting leaves the domain. -/
theorem claimC7_counterexample :
    ((handleUpdateSettings 0 0 true initState).2 = .ack true none none) ∧
    ((handleUpdateSettings 0 0 true initState).1.settings.interval = 0) ∧
    ¬(1 ≤ (handleUpdateSettings 0 0 true initState).1.settings.interval) :=
  ⟨rfl, rfl, by decide⟩

/-- C7 (amended): the delay defaults to 10, and range enforcement lives in
the popup: `autoSaveInterval` refuses to send NaN or out-of-range values,
so every UPDATE_SETTINGS it forwards carries an interval in [1, 300] and
the stored setting stays in [1, 300] (intervals are integers by the
`parseInt` model); the background itself accepts any numeric interval
sent directly, storing it unvalidated. -/
theorem claimC7_popup_guards_range :
    (initState.settings.interval = 10) ∧
    (∀ (parsed : Option Int) (n : Int),
      Popup.autoSaveInterval parsed = some n → 1 ≤ n ∧ n ≤ 300) ∧
    (∀ (parsed : Option Int) (n t : Int) (ok : Bool) (s : BgState),
      Popup.autoSaveInterval parsed = some n →
      1 ≤ (handleUpdateSettings t n ok s).1.settings.interval ∧
      (handleUpdateSettings t n ok s).1.settings.interval ≤ 300) := by
  have h2 : ∀ (parsed : Option Int) (n : Int),
      Popup.autoSaveInterval parsed = some n → 1 ≤ n ∧ n ≤ 300 := by
    intro parsed n h
    cases parsed with
    | none => exact absurd h (by simp [Popup.autoSaveInterval])
    | some m =>
      by_cases hr : (m < 1 || m > 300) = true
      · rw [Popup.autoSaveInterval, if_pos hr] at h
        exact absurd h (by simp)
      · rw [Popup.autoSaveInterval, if_neg hr] at h
        simp only [Option.some.injEq] at h
        subst h
        simp only [Bool.or_eq_true, not_or, decide_eq_true_eq] at hr
        omega
  refine ⟨rfl, h2, fun parsed n t ok s h => ?_⟩
  have := h2 parsed n h
  show 1 ≤ (updateSettings t n ok s).settings.interval ∧
    (updateSettings t n ok s).settings.interval ≤ 300
  rw [updateSettings_interval]
  exact this

/-- C7 amended witness: a popup-validated interval of 42 reaches the
stored setting and stays inside the domain. -/
theorem claimC7_popup_guards_range_witness :
    1 ≤ (handleUpdateSettings 0 42 true initState).1.settings.interval ∧
    (handleUpdateSettings 0 42 true initState).1.settings.interval ≤ 300 :=
  claimC7_popup_guards_range.2.2 (some 42) 42 0 true initState rfl

/-- C2 counterexample: the claim states that starting a new countdown
while one is active cancels both the previous countdown's scheduled clear
callback and its per-second badge-update callback.  Running the model on
pastes at t=0 and t=3000 ms (delay 10 s): the clear timeout of the first
countdown is indeed replaced (only the new one, deadline 13000, remains
scheduled), but the badge `setInterval` started by the first paste
(handle 0, counting once per second until t=10000) is still scheduled
after the second paste — `handlePasteEvent` only clears `clearTimer`,
never the previous `countdownInterval`, so the badge-callback half of the
claim is false. -/
theorem claimC2_counterexample :
    (run initState [Ev.paste 0 true, Ev.paste 3000 true]).intervals
      = [⟨2, 3000, 10⟩, ⟨0, 0, 10⟩] ∧
    (run initState [Ev.paste 0 true, Ev.paste 3000 true]).pendingClears
      = [⟨3, 13000, some 2⟩] :=
  ⟨rfl, rfl⟩

/-- C2 (amended): starting a new countdown while one is pending cancels
the previous countdown's scheduled clear callback (afterwards exactly one
clear is scheduled — the new one, at the new paste's time plus the delay,
under a fresh handle) and issues no clear command in doing so; the
previous countdown's per-second badge-update interval, however, is not
canceled — every badge interval still live keeps running.  Every
countdown that does reach its deadline issues exactly one clear command,
and a canceled countdown issues zero (its timeout is gone from the
schedule). -/
theorem claimC2_cancellation (s : BgState) (p : PendingClear) (t : Int) (isPwd : Bool)
    (hInv : TimerInv s) (hp : s.pendingClears = [p]) (hfresh : p.id < s.nextId)
    (ht : t < p.deadline) (hen : s.settings.enabled = true)
    (hpol : s.settings.clearOnlyOnPasswordPaste = false ∨ isPwd = true) :
    (∃ tm : PendingClear, (stepEv s (Ev.paste t isPwd)).pendingClears = [tm] ∧
        tm.deadline = t + 1000 * s.settings.interval ∧ tm.id ≠ p.id) ∧
    ((stepEv s (Ev.paste t isPwd)).clearInvocations = s.clearInvocations) ∧
    (∀ iv ∈ s.intervals, t < intervalEnd iv → iv ∈ (stepEv s (Ev.paste t isPwd)).intervals) ∧
    (∀ (u : BgState) (q : PendingClear), u.pendingClears = [q] →
        (advanceTo q.deadline u).clearInvocations = u.clearInvocations + 1 ∧
        (advanceTo q.deadline u).pendingClears = []) := by
  have hdue : ∀ q ∈ s.pendingClears, t < q.deadline := by
    intro q hq
    rw [hp] at hq
    simp at hq
    subst hq
    exact ht
  set s1 := advanceTo t s with hs1
  have hs1eq : s1 = { s with intervals := s.intervals.filter (fun iv => t < intervalEnd iv) } :=
    advanceTo_no_due hdue
  have hs1p : s1.pendingClears = [p] := by rw [hs1eq]; exact hp
  have hs1v : s1.clearTimerVar = some p.id := by
    rcases hInv with ⟨hv, hp0⟩ | ⟨q, hq, hv⟩
    · rw [hp] at hp0; exact absurd hp0 (by simp)
    · rw [hp] at hq
      simp only [List.cons.injEq, and_true] at hq
      rw [hs1eq]
      rw [hv, hq]
  have hs1set : s1.settings = s.settings := by rw [hs1eq]
  have hs1nid : s1.nextId = s.nextId := by rw [hs1eq]
  have hs1ci : s1.clearInvocations = s.clearInvocations := by rw [hs1eq]
  have hs1inv : TimerInv s1 := Or.inr ⟨p, hs1p, hs1v⟩
  have hcond : (s1.settings.enabled && (!s1.settings.clearOnlyOnPasswordPaste || isPwd))
      = true := by
    rw [hs1set, hen]
    rcases hpol with hc | hc
    · rw [hc]; rfl
    · rw [hc]; simp
  have hstep : stepEv s (Ev.paste t isPwd) = handlePasteEvent t s1 := by
    simp only [stepEv, handlePasteMsg, ← hs1, hcond, if_true]
  obtain ⟨h2p, h2v, h2set, h2ci, h2nid, h2iv⟩ := handlePasteEvent_spec hs1inv t
  refine ⟨?_, ?_, ?_, fun u q hq => advanceTo_fires hq⟩
  · refine ⟨⟨s1.nextId + 1, t + 1000 * s1.settings.interval, some s1.nextId⟩, ?_, ?_, ?_⟩
    · rw [hstep]; exact h2p
    · rw [hs1set]
    · show s1.nextId + 1 ≠ p.id
      rw [hs1nid]
      omega
  · rw [hstep, h2ci, hs1ci]
  · intro iv hiv hlive
    rw [hstep, h2iv]
    rw [hs1eq]
    apply List.mem_cons_of_mem
    simp only [List.mem_filter]
    exact ⟨hiv, by simpa using hlive⟩

/-- C2 amended witness: a second paste at 3000 ms, arriving while the
countdown from a paste at 0 ms is pending, issues no clear command. -/
theorem claimC2_cancellation_witness :
    (stepEv (run initState [Ev.paste 0 true]) (Ev.paste 3000 true)).clearInvocations
      = (run initState [Ev.paste 0 true]).clearInvocations :=
  (claimC2_cancellation (run initState [Ev.paste 0 true]) ⟨1, 10000, some 0⟩ 3000 true
    (Or.inr ⟨⟨1, 10000, some 0⟩, rfl, rfl⟩) rfl (by decide) (by decide) rfl (Or.inl rfl)).2.1

/-- C3: debounce-restart semantics.  (a) In full generality, the
coordinator never has more than one scheduled clear at any point of any
event sequence: the timer invariant (at most one pending clear, tracked
by the `clearTimer` variable) is preserved by every run.  (b) For every
sequence of qualifying pastes in which each paste arrives while the
previous countdown is pending, the final state has exactly one countdown,
whose deadline is the arrival time of the most recent paste plus the
configured delay, and no clear command was issued along the way (no
stacked timer ever fired). -/
theorem claimC3_debounce_restart (s : BgState) (first : Int × Bool) (rest : List (Int × Bool))
    (hp : s.pendingClears = []) (hv : s.clearTimerVar = none)
    (hen : s.settings.enabled = true)
    (hpol : ∀ x ∈ first :: rest, s.settings.clearOnlyOnPasswordPaste = false ∨ x.2 = true)
    (hchain : ChainedPastes s.settings.interval (first.1 + 1000 * s.settings.interval) rest) :
    (∀ (s0 : BgState) (es : List Ev), TimerInv s0 → TimerInv (run s0 es)) ∧
    (∃ q : PendingClear,
      (run s ((first :: rest).map fun x => Ev.paste x.1 x.2)).pendingClears = [q] ∧
      (run s ((first :: rest).map fun x => Ev.paste x.1 x.2)).clearTimerVar = some q.id ∧
      q.deadline = (rest.getLastD first).1 + 1000 * s.settings.interval ∧
      (run s ((first :: rest).map fun x => Ev.paste x.1 x.2)).clearInvocations
        = s.clearInvocations) := by
  refine ⟨fun s0 es h => timerInv_run h es, ?_⟩
  have hdue : ∀ q ∈ s.pendingClears, first.1 < q.deadline := by
    rw [hp]
    intro q hq
    simp at hq
  set s1 := advanceTo first.1 s with hs1
  have hs1eq : s1 = { s with
      intervals := s.intervals.filter (fun iv => first.1 < intervalEnd iv) } :=
    advanceTo_no_due hdue
  have hs1p : s1.pendingClears = [] := by rw [hs1eq]; exact hp
  have hs1v : s1.clearTimerVar = none := by rw [hs1eq]; exact hv
  have hs1set : s1.settings = s.settings := by rw [hs1eq]
  have hs1ci : s1.clearInvocations = s.clearInvocations := by rw [hs1eq]
  have hs1inv : TimerInv s1 := Or.inl ⟨hs1v, hs1p⟩
  have hcond : (s1.settings.enabled && (!s1.settings.clearOnlyOnPasswordPaste || first.2))
      = true := by
    rw [hs1set, hen]
    rcases hpol first (List.mem_cons_self _ _) with hc | hc
    · rw [hc]; rfl
    · rw [hc]; simp
  have hstep : stepEv s (Ev.paste first.1 first.2) = handlePasteEvent first.1 s1 := by
    simp only [stepEv, handlePasteMsg, ← hs1, hcond, if_true]
  set s2 := handlePasteEvent first.1 s1 with hs2
  obtain ⟨h2p, h2v, h2set, h2ci, h2nid, h2iv⟩ := handlePasteEvent_spec hs1inv first.1
  set p0 : PendingClear :=
    ⟨s1.nextId + 1, first.1 + 1000 * s1.settings.interval, some s1.nextId⟩ with hp0
  have h2en : s2.settings.enabled = true := by rw [h2set, hs1set, hen]
  have h2pol : ∀ y ∈ rest, s2.settings.clearOnlyOnPasswordPaste = false ∨ y.2 = true := by
    intro y hy
    rw [h2set, hs1set]
    exact hpol y (List.mem_cons_of_mem _ hy)
  have h2int : s2.settings.interval = s.settings.interval := by rw [h2set, hs1set]
  have h2chain : ChainedPastes s2.settings.interval p0.deadline rest := by
    rw [h2int, hp0]
    simp only []
    rw [hs1set]
    exact hchain
  obtain ⟨q, hq1, hq2, hq3, hq4, hq5⟩ := run_chained_pastes rest s2 p0 h2en h2pol h2p h2v h2chain
  refine ⟨q, ?_, ?_, ?_, ?_⟩
  · rw [List.map_cons, run_cons, hstep]
    exact hq1
  · rw [List.map_cons, run_cons, hstep]
    exact hq2
  · rw [hq3]
    simp only [h2int]
    rw [hs1set]
    exact foldl_deadline s.settings.interval rest first
  · rw [List.map_cons, run_cons, hstep, hq4, hs2, h2ci, hs1ci]

/-- C3 witness: the spec's scenario — pastes at 0 and 3000 ms with the
default 10-second delay — ends with exactly one countdown, deadline
13000 ms, and zero clear commands issued. -/
theorem claimC3_debounce_restart_witness :
    ∃ q : PendingClear,
      (run initState [Ev.paste 0 true, Ev.paste 3000 true]).pendingClears = [q] ∧
      (run initState [Ev.paste 0 true, Ev.paste 3000 true]).clearTimerVar = some q.id ∧
      q.deadline = (([((3000 : Int), true)]).getLastD (0, true)).1
        + 1000 * initState.settings.interval ∧
      (run initState [Ev.paste 0 true, Ev.paste 3000 true]).clearInvocations
        = initState.clearInvocations :=
  (claimC3_debounce_restart initState (0, true) [(3000, true)] rfl rfl rfl
    (fun _ _ => Or.inl rfl) ⟨by decide, trivial⟩).2

/-- C4 counterexample: the claim states that updating the delay while a
countdown is active always restarts the timer to now + the new full
delay.  When the storage write fails (`chrome.storage.sync.set` throws,
caught and only logged), the in-memory interval is still updated to 5 and
the request is still answered `{success: true}`, but the pending timer is
not rescheduled: after a paste at 0 with delay 10 and an update to 5 at
t=6000, the scheduled deadline is still 10000, not 6000 + 5000. -/
theorem claimC4_counterexample :
    ((handleUpdateSettings 6000 5 false (run initState [Ev.paste 0 true])).1.settings.interval
        = 5) ∧
    ((handleUpdateSettings 6000 5 false (run initState [Ev.paste 0 true])).1.pendingClears
        = [⟨1, 10000, some 0⟩]) ∧
    ((handleUpdateSettings 6000 5 false (run initState [Ev.paste 0 true])).2
        = .ack true none none) ∧
    ((10000 : Int) ≠ 6000 + 1000 * 5) :=
  ⟨rfl, rfl, rfl, by decide⟩

/-- C4 (amended): if the delay setting is updated while a countdown is
active and the storage write succeeds, the pending clear timer is
restarted so that the new deadline is the update time plus the new full
delay, regardless of the elapsed portion of the old countdown; no clear
command is issued by the reschedule.  (On storage failure the in-memory
interval still updates but the old deadline is kept, as the
counterexample shows.) -/
theorem claimC4_restart_full_delay (s : BgState) (p : PendingClear) (t n : Int)
    (hInv : TimerInv s) (hp : s.pendingClears = [p]) :
    ∃ tm : PendingClear,
      (updateSettings t n true s).pendingClears = [tm] ∧
      (updateSettings t n true s).clearTimerVar = some tm.id ∧
      tm.deadline = t + 1000 * n ∧
      (updateSettings t n true s).settings.interval = n ∧
      (updateSettings t n true s).clearInvocations = s.clearInvocations := by
  obtain ⟨st, var, pend, ivs, nid, cinv⟩ := s
  rcases hInv with ⟨hv, hp0⟩ | ⟨q, hq, hv⟩
  · simp only at hp hp0
    rw [hp0] at hp
    exact absurd hp (by simp)
  · simp only at hp hq hv
    rw [hq] at hp
    simp only [List.cons.injEq, and_true] at hp
    subst hp
    subst hq
    subst hv
    refine ⟨⟨nid, t + 1000 * n, none⟩, ?_, ?_, rfl, ?_, ?_⟩ <;>
      simp [updateSettings, cancelPending, List.filter]

/-- C4 amended witness: the spec's scenario — delay 10, paste at 0,
update to 5 at t=6000 with a successful storage write — reschedules the
single pending clear to deadline 11000 = 6000 + 1000·5. -/
theorem claimC4_restart_full_delay_witness :
    ∃ tm : PendingClear,
      (updateSettings 6000 5 true (run initState [Ev.paste 0 true])).pendingClears = [tm] ∧
      (updateSettings 6000 5 true (run initState [Ev.paste 0 true])).clearTimerVar
        = some tm.id ∧
      tm.deadline = 6000 + 1000 * 5 ∧
      (updateSettings 6000 5 true (run initState [Ev.paste 0 true])).settings.interval = 5 ∧
      (updateSettings 6000 5 true (run initState [Ev.paste 0 true])).clearInvocations
        = (run initState [Ev.paste 0 true]).clearInvocations :=
  claimC4_restart_full_delay _ ⟨1, 10000, some 0⟩ 6000 5
    (Or.inr ⟨⟨1, 10000, some 0⟩, rfl, rfl⟩) rfl

end CopyPasteForget
